import Mathlib

set_option autoImplicit false

/-
Shallow embedding of gh-pr-scheduler (main.go): a Bubble Tea TUI that schedules
auto-merge for GitHub PRs.  The model, messages, commands and the whole `Update`
state machine are translated from the source; the external Bubble Tea widgets
(list, time-picker list, text input) are represented by their observable state
(the current selection / input text), and widget-internal updates are modeled by
a message that may change exactly that state.  Timestamps are natural numbers of
seconds; Go's zero `time.Time` is `0`, and `time.After` is strict `<`.
-/

namespace PrScheduler

/-- Timestamps in seconds; `0` plays the role of Go's zero `time.Time`. -/
abbrev Time := Nat

/-- Display rendering of a timestamp (`time.Time.Format` in the source); the
calendar text is abstracted to the decimal value, which is display-only. -/
def formatTime (t : Time) : String := toString t

/-- A pull request row (struct `pr` in main.go). -/
structure pr where
  Number : Nat
  Title : String
  Author : String
  State : String
  MergeState : String
  URL : String
  deriving Repr, DecidableEq

/-- A time preset of the picker (struct `timePreset` in main.go). -/
structure timePreset where
  Label : String
  Description : String
  IsCustom : Bool
  Duration : Nat
  deriving Repr, DecidableEq

/-- One scheduled auto-merge workflow entry (struct `scheduledMerge` in main.go). -/
structure scheduledMerge where
  PR : pr
  When : Time
  PreMergeCommentPosted : Bool
  MergeTriggered : Bool
  CheckScheduled : Bool
  CheckAt : Time
  FailureHandled : Bool
  Done : Bool
  LastMessage : String
  deriving Repr, DecidableEq

/-- The UI mode (type `mode` in main.go). -/
inductive mode where
  | modeListing
  | modeTimePicker
  | modeScheduling
  deriving Repr, DecidableEq

/-- Side-effecting commands issued by `Update` (the `tea.Cmd` values built by the
command constructors in main.go).  `notifySend` stands for the synchronous
`notify-send` call in the `commitSHAMsg` handler. -/
inductive Cmd where
  | fetchMe
  | fetchPRs
  | tickCmd
  | mergePR (prNumber : Nat)
  | commentPR (prNumber : Nat) (body : String) (isPreMerge : Bool)
  | disableAutoMerge (prNumber : Nat)
  | getCommitSHA (prNumber : Nat)
  | checkMerged (prNumber : Nat)
  | notifySend (title : String) (body : String)
  | quit
  deriving Repr, DecidableEq

/-- Incoming messages (the message types of main.go).  Collaborator errors are
`Option String` (`none` = nil error, `some e` = the error text used in the
handler's format strings).  `keyMsg` carries `msg.String()`; `widgetMsg` models a
message delegated to the active external widget, carrying the widget state it
may produce. -/
inductive Msg where
  | windowSizeMsg (w : Nat) (h : Nat)
  | meMsg (login : String)
  | prListMsg (l : List pr)
  | errMsg (e : String)
  | tickMsg (now : Time)
  | mergeResultMsg (prNumber : Nat) (err : Option String)
  | checkMergedMsg (prNumber : Nat) (merged : Bool) (err : Option String)
  | commentResultMsg (prNumber : Nat) (isPreMerge : Bool) (err : Option String)
  | disableAutoMergeResultMsg (prNumber : Nat) (err : Option String)
  | commitSHAMsg (prNumber : Nat) (sha : String) (err : Option String)
  | keyMsg (k : String)
  | widgetMsg (sel : Option pr) (psel : Option timePreset) (inp : String)
  deriving Repr, DecidableEq

/-- The application model (struct `model` in main.go).  `listSelected`,
`timePickerSelected` and `input` are the observable state of the external
widgets (`m.list.SelectedItem()`, `m.timePicker.SelectedItem()`,
`m.input.Value()`). -/
structure model where
  width : Nat
  height : Nat
  prs : List pr
  onlyMine : Bool
  me : String
  status : String
  lastErr : Option String
  mode : mode
  input : String
  schedFor : Option pr
  scheduled : List scheduledMerge
  now : Time
  quitWarned : Bool
  listSelected : Option pr
  timePickerSelected : Option timePreset
  deriving Repr, DecidableEq

/-- Index of the first active (non-Done) entry for a PR number
(`findScheduledIndex` in main.go; Go's `-1` is `none`). -/
def findScheduledIndex : List scheduledMerge → Nat → Option Nat
  | [], _ => none
  | s :: rest, n =>
    if s.PR.Number = n ∧ s.Done = false then some 0
    else (findScheduledIndex rest n).map (· + 1)

/-- Whether any entry is still active (`hasActiveSchedules` in main.go). -/
def hasActiveSchedules (l : List scheduledMerge) : Bool :=
  l.any (fun s => !s.Done)

/-- In-place update of the entry at an index (`m.scheduled[idx] = ...`). -/
def modifyIdx : List scheduledMerge → Nat → (scheduledMerge → scheduledMerge) → List scheduledMerge
  | [], _, _ => []
  | s :: rest, 0, f => f s :: rest
  | s :: rest, i + 1, f => s :: modifyIdx rest i f

/-- The fresh entry built at scheduling time: `scheduledMerge{PR: p, When: when,
CheckAt: time.Time{}}`; the remaining fields take Go zero values. -/
def newSchedule (p : pr) (w : Time) : scheduledMerge :=
  { PR := p, When := w, PreMergeCommentPosted := false, MergeTriggered := false,
    CheckScheduled := false, CheckAt := 0, FailureHandled := false, Done := false,
    LastMessage := "" }

/-- Recompute the filtered PR view and the status line (`applyFilter`).  The
widget item list itself is external; only the modeled fields change. -/
def applyFilter (m : model) : model :=
  let filtered := if m.onlyMine ∧ m.me ≠ "" then m.prs.filter (fun p => p.Author = m.me) else m.prs
  { m with status := toString filtered.length ++ " PRs (onlyMine=" ++ toString m.onlyMine ++ ")" }

/-- Per-entry body of the tick loop in `Update` (case `tickMsg`): issue the
pre-merge comment once `When` has strictly passed, and the merged-state check
once `CheckAt` is set and has strictly passed. -/
def tickOne (now : Time) (s : scheduledMerge) : scheduledMerge × List Cmd :=
  if s.Done then (s, [])
  else
    let step1 : scheduledMerge × List Cmd :=
      if s.PreMergeCommentPosted = false ∧ s.When ≠ 0 ∧ s.When < now then
        ({ s with PreMergeCommentPosted := true,
                  LastMessage := "Posting pre-merge comment for PR #" ++ toString s.PR.Number },
         [Cmd.commentPR s.PR.Number
            ("Setting PR to auto-merge. Scheduled merge time: " ++ formatTime s.When) true])
      else (s, [])
    let s1 := step1.1
    if s1.MergeTriggered = true ∧ s1.CheckScheduled = false ∧ s1.CheckAt ≠ 0 ∧ s1.CheckAt < now then
      ({ s1 with CheckScheduled := true,
                 LastMessage := "Checking merge status for PR #" ++ toString s1.PR.Number },
       step1.2 ++ [Cmd.checkMerged s1.PR.Number])
    else (s1, step1.2)

/-- Handler of `tickMsg`: record the clock, run the loop over all entries, and
keep ticking. -/
def onTick (m : model) (now : Time) : model × List Cmd :=
  let m1 := { m with now := now }
  let stepped := m1.scheduled.map (tickOne now)
  ({ m1 with scheduled := stepped.map Prod.fst },
   (stepped.map Prod.snd).flatten ++ [Cmd.tickCmd])

/-- Handler of `mergeResultMsg`: a failure is terminal; a success records
`CheckAt = now + 1 minute`. -/
def onMergeResult (m : model) (n : Nat) (err : Option String) : model × List Cmd :=
  match findScheduledIndex m.scheduled n with
  | none => (m, [])
  | some idx =>
    match err with
    | some e =>
      let lm := "Auto-merge failed: " ++ e
      ({ m with scheduled := modifyIdx m.scheduled idx (fun s => { s with Done := true, LastMessage := lm }),
                status := lm }, [])
    | none =>
      let checkAt := m.now + 60
      ({ m with scheduled := modifyIdx m.scheduled idx
                  (fun s => { s with CheckAt := checkAt, LastMessage := "Auto-merge set, will check in 1 minute" }),
                status := "PR #" ++ toString n ++ ": auto-merge set; check at " ++ formatTime checkAt }, [])

/-- Handler of `checkMergedMsg`: a failed check is terminal; `merged` is
terminal success; otherwise fetch the head commit for the failure comment. -/
def onCheckMerged (m : model) (n : Nat) (merged : Bool) (err : Option String) : model × List Cmd :=
  match findScheduledIndex m.scheduled n with
  | none => (m, [])
  | some idx =>
    match err with
    | some e =>
      let lm := "Check failed: " ++ e
      ({ m with scheduled := modifyIdx m.scheduled idx (fun s => { s with Done := true, LastMessage := lm }),
                status := "PR #" ++ toString n ++ ": " ++ lm }, [])
    | none =>
      if merged then
        let lm := "PR is merged"
        ({ m with scheduled := modifyIdx m.scheduled idx (fun s => { s with Done := true, LastMessage := lm }),
                  status := "PR #" ++ toString n ++ ": " ++ lm }, [])
      else
        let lm := "PR not merged, fetching commit SHA..."
        ({ m with scheduled := modifyIdx m.scheduled idx (fun s => { s with LastMessage := lm }),
                  status := "PR #" ++ toString n ++ ": " ++ lm }, [Cmd.getCommitSHA n])

/-- Handler of `commitSHAMsg`: substitute "unknown" on fetch failure, mark
`FailureHandled`, send the urgent notification (synchronous in the source, first
in the command list here), and issue disable-auto-merge plus the failure
comment concurrently. -/
def onCommitSHA (m : model) (n : Nat) (sha : String) (err : Option String) : model × List Cmd :=
  match findScheduledIndex m.scheduled n with
  | none => (m, [])
  | some idx =>
    match m.scheduled[idx]? with
    | none => (m, [])  -- unreachable: findScheduledIndex only returns in-range indices

    | some s0 =>
      let sha1 := if err.isSome then "unknown" else sha
      let lm := "Disabling auto-merge and posting failure comment..."
      let failureComment :=
        "Auto-merge did not complete successfully. Disabling auto-merge.\n\nCurrent commit: " ++ sha1
      let notifyBody := "PR #" ++ toString n ++ " (" ++ s0.PR.Title ++ ") is still not merged after auto-merge."
      ({ m with scheduled := modifyIdx m.scheduled idx
                  (fun s => { s with FailureHandled := true, LastMessage := lm }),
                status := "PR #" ++ toString n ++ ": " ++ lm },
       [Cmd.notifySend "PR not merged" notifyBody,
        Cmd.disableAutoMerge n,
        Cmd.commentPR n failureComment false])

/-- Handler of `commentResultMsg`: a pre-merge comment result (success or
failure) triggers the merge; a failure-comment result marks the entry Done with
the final message. -/
def onCommentResult (m : model) (n : Nat) (isPreMerge : Bool) (err : Option String) : model × List Cmd :=
  match findScheduledIndex m.scheduled n with
  | none => (m, [])
  | some idx =>
    if isPreMerge then
      let lm := match err with
        | some e => "Comment failed: " ++ e ++ " (continuing with merge)"
        | none => "Pre-merge comment posted, triggering auto-merge..."
      ({ m with scheduled := modifyIdx m.scheduled idx
                  (fun s => { s with MergeTriggered := true, LastMessage := lm }),
                status := "PR #" ++ toString n ++ ": " ++ lm }, [Cmd.mergePR n])
    else
      let lm := match err with
        | some e => "PR not merged (failure comment failed: " ++ e ++ ")"
        | none => "PR not merged (auto-merge disabled, notification sent)"
      ({ m with scheduled := modifyIdx m.scheduled idx
                  (fun s => { s with Done := true, LastMessage := lm }),
                status := "PR #" ++ toString n ++ ": " ++ lm }, [])

/-- Handler of `disableAutoMergeResultMsg`: an error is logged into the entry's
message only; completion waits for the comment result. -/
def onDisableResult (m : model) (n : Nat) (err : Option String) : model × List Cmd :=
  match findScheduledIndex m.scheduled n with
  | none => (m, [])
  | some idx =>
    match err with
    | some e =>
      ({ m with scheduled := modifyIdx m.scheduled idx
                  (fun s => { s with LastMessage := "Failed to disable auto-merge: " ++ e }) }, [])
    | none => (m, [])

/-- Key handling in listing mode (`updateListingKey`). -/
def updateListingKey (m : model) (k : String) : model × List Cmd :=
  if k = "q" ∨ k = "ctrl+c" then
    if hasActiveSchedules m.scheduled = true ∧ m.quitWarned = false then
      ({ m with quitWarned := true,
                status := "Warning: Active scheduled merges! Press 'q' again to force quit." }, [])
    else (m, [Cmd.quit])
  else if k = "m" then
    (applyFilter { m with quitWarned := false, onlyMine := !m.onlyMine }, [])
  else if k = "r" then
    ({ m with quitWarned := false, status := "Refreshing PR list..." }, [Cmd.fetchPRs])
  else if k = "enter" then
    let m1 := { m with quitWarned := false }
    match m1.listSelected with
    | some p =>
      if (findScheduledIndex m1.scheduled p.Number).isSome then
        ({ m1 with status := "PR #" ++ toString p.Number ++ " already has a scheduled merge" }, [])
      else
        ({ m1 with schedFor := some p, mode := mode.modeTimePicker,
                   status := "Select merge time for PR #" ++ toString p.Number }, [])
    | none => (m1, [])
  else
    ({ m with quitWarned := false }, [])

/-- Key handling in the time-picker (`updateTimePickerKey`). -/
def updateTimePickerKey (m : model) (k : String) : model × List Cmd :=
  if k = "enter" then
    match m.timePickerSelected with
    | some preset =>
      if preset.IsCustom then
        match m.schedFor with
        | some p =>
          ({ m with input := "", mode := mode.modeScheduling,
                    status := "Enter custom time for PR #" ++ toString p.Number }, [])
        | none =>
          -- the source dereferences m.schedFor unconditionally here; it is never
          -- nil while the picker is open, so this arm is unreachable (number 0)
          ({ m with input := "", mode := mode.modeScheduling,
                    status := "Enter custom time for PR #0" }, [])
      else
        match m.schedFor with
        | none =>
          ({ m with status := "No PR selected to schedule.", mode := mode.modeListing }, [])
        | some p =>
          let w := m.now + preset.Duration
          let s := newSchedule p w
          ({ m with scheduled := m.scheduled ++ [s],
                    status := "Scheduled auto-merge for PR #" ++ toString p.Number ++ " at " ++ formatTime w,
                    mode := mode.modeListing, schedFor := none }, [])
    | none => (m, [])
  else if k = "esc" ∨ k = "q" then
    ({ m with mode := mode.modeListing, status := "Scheduling cancelled", schedFor := none }, [])
  else (m, [])

/-- Number of exact digits parsed by Go's `getnum` with `fixed = true`, or one
or two digits with `fixed = false` (internal to `time.Parse`). -/
def getnum (fixed : Bool) : List Char → Option (Nat × List Char)
  | [] => none
  | [c1] =>
    if c1.isDigit ∧ fixed = false then some (c1.toNat - '0'.toNat, []) else none
  | c1 :: c2 :: rest =>
    if c1.isDigit then
      if c2.isDigit then some ((c1.toNat - '0'.toNat) * 10 + (c2.toNat - '0'.toNat), rest)
      else if fixed then none
      else some (c1.toNat - '0'.toNat, c2 :: rest)
    else none

/-- Parse the four-digit year field of layout "2006" (signed years are not
modeled; Go would also accept a leading sign in the four characters). -/
def getYear4 : List Char → Option (Nat × List Char)
  | a :: b :: c :: d :: rest =>
    if a.isDigit ∧ b.isDigit ∧ c.isDigit ∧ d.isDigit then
      some ((((a.toNat - '0'.toNat) * 10 + (b.toNat - '0'.toNat)) * 10 + (c.toNat - '0'.toNat)) * 10
              + (d.toNat - '0'.toNat), rest)
    else none
  | _ => none

/-- Consume one expected layout separator character. -/
def expectChar (c : Char) : List Char → Option (List Char)
  | x :: rest => if x = c then some rest else none
  | [] => none

/-- Gregorian leap-year rule used by Go's `time` package. -/
def isLeap (y : Nat) : Bool :=
  y % 4 = 0 && (y % 100 != 0 || y % 400 = 0)

/-- Days in a month, February depending on the leap rule (`daysIn`). -/
def daysInMonth (y m : Nat) : Nat :=
  match m with
  | 1 => 31 | 2 => if isLeap y then 29 else 28 | 3 => 31 | 4 => 30 | 5 => 31 | 6 => 30
  | 7 => 31 | 8 => 31 | 9 => 30 | 10 => 31 | 11 => 30 | 12 => 31 | _ => 0

/-- Days contributed by the months strictly before month `m` of year `y`. -/
def daysBeforeMonth (y m : Nat) : Nat :=
  (List.range (m - 1)).foldl (fun a i => a + daysInMonth y (i + 1)) 0

/-- Days in all years strictly before year `y` (proleptic Gregorian, year 0 a
leap year). -/
def daysBeforeYear (y : Nat) : Nat :=
  365 * y + (y + 3) / 4 - (y + 99) / 100 + (y + 399) / 400

/-- Seconds value of a civil date-time, the embedding's image of the `time.Time`
produced by a successful parse. -/
def timeSeconds (y mo d h mi : Nat) : Nat :=
  (((daysBeforeYear y + daysBeforeMonth y mo + (d - 1)) * 24 + h) * 60 + mi) * 60

/-- Parse in Go's layout "2006-01-02 15:04" (`time.ParseInLocation` in
`updateSchedulingKey`): four-digit year, two-digit month and day, one-or-two
digit hour, two-digit minute, exact separators, nothing left over, and the
range checks Go applies (month 1..12, day within the month, hour < 24,
minute < 60). -/
def goParseDateTime (s : String) : Option Time := do
  let cs := s.toList
  let (y, cs) ← getYear4 cs
  let cs ← expectChar '-' cs
  let (mo, cs) ← getnum true cs
  let cs ← expectChar '-' cs
  let (d, cs) ← getnum true cs
  let cs ← expectChar ' ' cs
  let (h, cs) ← getnum false cs
  let cs ← expectChar ':' cs
  let (mi, cs) ← getnum true cs
  if cs ≠ [] then none
  else if mo < 1 ∨ 12 < mo then none
  else if d < 1 ∨ daysInMonth y mo < d then none
  else if 24 ≤ h then none
  else if 60 ≤ mi then none
  else some (timeSeconds y mo d h mi)

/-- ASCII model of Go's `strings.TrimSpace`: drop whitespace from both ends
(structural on the character list so that it evaluates by reduction). -/
def trimString (s : String) : String :=
  ⟨((s.data.dropWhile Char.isWhitespace).reverse.dropWhile Char.isWhitespace).reverse⟩

/-- ASCII model of Go's `strings.ToLower`. -/
def toLowerString (s : String) : String :=
  ⟨s.data.map Char.toLower⟩

/-- Key handling in custom time entry (`updateSchedulingKey`). -/
def updateSchedulingKey (m : model) (k : String) : model × List Cmd :=
  if k = "enter" then
    let raw := trimString m.input
    let w? : Option Time :=
      if raw = "" ∨ toLowerString raw = "now" then some m.now
      else goParseDateTime raw
    match w? with
    | none =>
      ({ m with status := "Invalid time format. Use YYYY-MM-DD HH:MM or 'now'." }, [])
    | some w =>
      match m.schedFor with
      | none =>
        ({ m with status := "No PR selected to schedule.", mode := mode.modeListing }, [])
      | some p =>
        let s := newSchedule p w
        ({ m with scheduled := m.scheduled ++ [s],
                  status := "Scheduled auto-merge for PR #" ++ toString p.Number ++ " at " ++ formatTime w,
                  mode := mode.modeListing, schedFor := none }, [])
  else if k = "esc" then
    ({ m with mode := mode.modeTimePicker, status := "Back to time selection" }, [])
  else (m, [])

/-- The Bubble Tea update function (`model.Update` in main.go). -/
def Update (m : model) (msg : Msg) : model × List Cmd :=
  match msg with
  | .windowSizeMsg w h => ({ m with width := w, height := h }, [])
  | .meMsg login =>
    (applyFilter { m with me := login, status := "Loaded GitHub user: " ++ login }, [])
  | .prListMsg l => (applyFilter { m with prs := l }, [])
  | .errMsg e => ({ m with lastErr := some e, status := "Error: " ++ e }, [])
  | .tickMsg now => onTick m now
  | .mergeResultMsg n err => onMergeResult m n err
  | .checkMergedMsg n merged err => onCheckMerged m n merged err
  | .commentResultMsg n p err => onCommentResult m n p err
  | .disableAutoMergeResultMsg n err => onDisableResult m n err
  | .commitSHAMsg n sha err => onCommitSHA m n sha err
  | .keyMsg k =>
    match m.mode with
    | mode.modeScheduling => updateSchedulingKey m k
    | mode.modeTimePicker => updateTimePickerKey m k
    | mode.modeListing => updateListingKey m k
  | .widgetMsg sel psel inp =>
    match m.mode with
    | mode.modeScheduling => ({ m with input := inp }, [])
    | mode.modeTimePicker => ({ m with timePickerSelected := psel }, [])
    | mode.modeListing => ({ m with listSelected := sel }, [])

/-- The initial model (`initialModel`), parameterized by the starting clock
value `time.Now()`. -/
def initialModel (now0 : Time) : model :=
  { width := 0, height := 0, prs := [], onlyMine := false, me := "",
    status := "Loading...", lastErr := none, mode := mode.modeListing, input := "",
    schedFor := none, scheduled := [], now := now0, quitWarned := false,
    listSelected := none, timePickerSelected := none }

/-- Fold a list of messages through `Update`, keeping the model. -/
def runMsgs (m : model) (msgs : List Msg) : model :=
  msgs.foldl (fun acc msg => (Update acc msg).1) m

/-- States reachable from the initial model under arbitrary messages. -/
inductive Reachable : model → Prop where
  | init (now0 : Time) : Reachable (initialModel now0)
  | step {m : model} (msg : Msg) : Reachable m → Reachable (Update m msg).1

/-- Lookup key of an entry: its PR number and Done flag, which are the only
fields `findScheduledIndex` inspects. -/
def entryKey (s : scheduledMerge) : Nat × Bool := (s.PR.Number, s.Done)

/-- The lookup keys of a schedule list. -/
def keys (l : List scheduledMerge) : List (Nat × Bool) := l.map entryKey

/-- Number of active (non-Done) entries for a PR number; the registry invariant
says this never exceeds one. -/
def countActive (l : List scheduledMerge) (n : Nat) : Nat :=
  l.countP (fun s => decide (s.PR.Number = n) && !s.Done)

/-- A per-entry transition is monotone: it preserves identity and schedule time
and only ever turns the progress flags on. -/
def monoF (f : scheduledMerge → scheduledMerge) : Prop :=
  ∀ s, (f s).PR = s.PR ∧ (f s).When = s.When ∧
    (s.PreMergeCommentPosted = true → (f s).PreMergeCommentPosted = true) ∧
    (s.MergeTriggered = true → (f s).MergeTriggered = true) ∧
    (s.CheckScheduled = true → (f s).CheckScheduled = true) ∧
    (s.FailureHandled = true → (f s).FailureHandled = true) ∧
    (s.Done = true → (f s).Done = true)

/-- Relation between an entry before and after one step: identity and schedule
time are preserved, the flags only advance, and a Done entry is left verbatim. -/
def entryStep (e e' : scheduledMerge) : Prop :=
  e'.PR = e.PR ∧ e'.When = e.When ∧
  (e.PreMergeCommentPosted = true → e'.PreMergeCommentPosted = true) ∧
  (e.MergeTriggered = true → e'.MergeTriggered = true) ∧
  (e.CheckScheduled = true → e'.CheckScheduled = true) ∧
  (e.FailureHandled = true → e'.FailureHandled = true) ∧
  (e.Done = true → e' = e)

/-- Final message recorded when the failure comment's result arrives (the two
branches of the non-pre-merge arm of `commentResultMsg`). -/
def remediationFinalMessage : Option String → String
  | some e => "PR not merged (failure comment failed: " ++ e ++ ")"
  | none => "PR not merged (auto-merge disabled, notification sent)"

/-- Message recorded when the pre-merge comment's result arrives (the two
branches of the pre-merge arm of `commentResultMsg`). -/
def preMergeCommentMessage : Option String → String
  | some e => "Comment failed: " ++ e ++ " (continuing with merge)"
  | none => "Pre-merge comment posted, triggering auto-merge..."

/-- A concrete PR used by the witness states. -/
def prA : pr :=
  { Number := 3, Title := "Add feature", Author := "alice", State := "OPEN",
    MergeState := "CLEAN", URL := "https://example.test/pr/3" }

/-- A freshly scheduled entry for `prA` due at time 100. -/
def entryActive : scheduledMerge := newSchedule prA 100

/-- A state with one active scheduled entry and `prA` selected in the list. -/
def mActive : model :=
  { initialModel 50 with scheduled := [entryActive], listSelected := some prA }

/-- A custom-time-entry state whose input does not parse. -/
def mSched : model :=
  { initialModel 50 with mode := mode.modeScheduling, schedFor := some prA,
                         input := "garbage" }

/-- A custom-time-entry state whose input is the word "now" up to case and
surrounding blanks. -/
def mSchedNow : model :=
  { initialModel 50 with mode := mode.modeScheduling, schedFor := some prA,
                         input := " NoW " }

/-- Shapes the scheduled list can take across one `Update` step: unchanged,
one appended entry, a monotone in-place update of an active entry, or the tick
sweep. -/
inductive SchedStep : List scheduledMerge → List scheduledMerge → Prop where
  | same (l : List scheduledMerge) : SchedStep l l
  | append (l : List scheduledMerge) (x : scheduledMerge) : SchedStep l (l ++ [x])
  | modify (l : List scheduledMerge) (j : Nat) (f : scheduledMerge → scheduledMerge)
      (hj : ∃ e, l[j]? = some e ∧ e.Done = false) (hf : monoF f) :
      SchedStep l (modifyIdx l j f)
  | tick (l : List scheduledMerge) (now : Time) :
      SchedStep l ((l.map (tickOne now)).map Prod.fst)

/-- The registry invariant: at most one active entry per PR number, and a PR
pending time selection (`schedFor`) has no active entry at all. -/
def Inv (m : model) : Prop :=
  (∀ n, countActive m.scheduled n ≤ 1) ∧
  (∀ p : pr, m.schedFor = some p → countActive m.scheduled p.Number = 0)

theorem entryStep_refl (e : scheduledMerge) : entryStep e e :=
  ⟨rfl, rfl, id, id, id, id, fun _ => rfl⟩

theorem getElem?_modifyIdx_self (l : List scheduledMerge) (i : Nat)
    (f : scheduledMerge → scheduledMerge) :
    (modifyIdx l i f)[i]? = l[i]?.map f := by
  induction l generalizing i with
  | nil => simp [modifyIdx]
  | cons s rest ih =>
    cases i with
    | zero => simp [modifyIdx]
    | succ j => simpa [modifyIdx] using ih j

theorem getElem?_modifyIdx_ne (l : List scheduledMerge) (i j : Nat)
    (f : scheduledMerge → scheduledMerge) (h : i ≠ j) :
    (modifyIdx l i f)[j]? = l[j]? := by
  induction l generalizing i j with
  | nil => simp [modifyIdx]
  | cons s rest ih =>
    cases i with
    | zero =>
      cases j with
      | zero => exact absurd rfl h
      | succ j' => simp [modifyIdx]
    | succ i' =>
      cases j with
      | zero => simp [modifyIdx]
      | succ j' => simpa [modifyIdx] using ih i' j' (fun hh => h (by simp [hh]))

theorem findScheduledIndex_spec {l : List scheduledMerge} {n i : Nat}
    (h : findScheduledIndex l n = some i) :
    ∃ e, l[i]? = some e ∧ e.PR.Number = n ∧ e.Done = false := by
  induction l generalizing i with
  | nil => simp [findScheduledIndex] at h
  | cons s rest ih =>
    by_cases hc : s.PR.Number = n ∧ s.Done = false
    · simp only [findScheduledIndex, if_pos hc, Option.some.injEq] at h
      subst h
      exact ⟨s, by simp, hc.1, hc.2⟩
    · simp only [findScheduledIndex, if_neg hc] at h
      obtain ⟨j, hj, rfl⟩ := Option.map_eq_some'.mp h
      obtain ⟨e, he, hn, hd⟩ := ih hj
      exact ⟨e, by simpa using he, hn, hd⟩

theorem findScheduledIndex_none_iff {l : List scheduledMerge} {n : Nat} :
    findScheduledIndex l n = none ↔ countActive l n = 0 := by
  induction l with
  | nil => simp [findScheduledIndex, countActive]
  | cons s rest ih =>
    by_cases hc : s.PR.Number = n ∧ s.Done = false
    · simp [findScheduledIndex, if_pos hc, countActive, List.countP_cons, hc.1, hc.2]
    · have hbit : (decide (s.PR.Number = n) && !s.Done) = false := by
        rcases not_and_or.mp hc with h1 | h2
        · simp [h1]
        · have : s.Done = true := by
            cases hD : s.Done with
            | false => exact absurd hD h2
            | true => rfl
          simp [this]
      simp only [findScheduledIndex, if_neg hc, countActive, List.countP_cons, hbit,
        if_false, Option.map_eq_none', Nat.add_zero]
      simpa [countActive] using ih

theorem countActive_append_single (l : List scheduledMerge) (x : scheduledMerge) (n : Nat) :
    countActive (l ++ [x]) n =
      countActive l n + (if x.PR.Number = n ∧ x.Done = false then 1 else 0) := by
  unfold countActive
  rw [List.countP_append]
  congr 1
  by_cases hc : x.PR.Number = n ∧ x.Done = false
  · simp [List.countP_cons, hc.1, hc.2, if_pos hc]
  · rcases not_and_or.mp hc with h1 | h2
    · simp [List.countP_cons, h1, if_neg hc]
    · have : x.Done = true := by
        cases hD : x.Done with
        | false => exact absurd hD h2
        | true => rfl
      simp [List.countP_cons, this, if_neg hc]

theorem countActive_modifyIdx_le {f : scheduledMerge → scheduledMerge} (hf : monoF f)
    (l : List scheduledMerge) (i n : Nat) :
    countActive (modifyIdx l i f) n ≤ countActive l n := by
  induction l generalizing i with
  | nil => simp [modifyIdx]
  | cons s rest ih =>
    cases i with
    | zero =>
      simp only [modifyIdx, countActive, List.countP_cons]
      have hn : (f s).PR.Number = s.PR.Number := by rw [(hf s).1]
      have hmono : s.Done = true → (f s).Done = true := (hf s).2.2.2.2.2.2
      by_cases hd : s.Done = true
      · simp [hn, hd, hmono hd]
      · have hdf : s.Done = false := by
          cases hD : s.Done with
          | false => rfl
          | true => exact absurd hD hd
        by_cases hnum : s.PR.Number = n
        · have : (decide (s.PR.Number = n) && !s.Done) = true := by simp [hnum, hdf]
          simp only [this, if_true]
          have hle : (if (decide ((f s).PR.Number = n) && !(f s).Done) = true then 1 else 0) ≤ 1 := by
            split <;> omega
          omega
        · simp [hn, hnum]
    | succ j =>
      simp only [modifyIdx, countActive, List.countP_cons]
      have := ih j
      simp only [countActive] at this
      omega

theorem tickOne_fst_key (now : Time) (s : scheduledMerge) :
    (tickOne now s).1.PR = s.PR ∧ (tickOne now s).1.Done = s.Done ∧
      (tickOne now s).1.When = s.When := by
  unfold tickOne
  split
  · exact ⟨rfl, rfl, rfl⟩
  · dsimp only
    split <;> split <;> exact ⟨rfl, rfl, rfl⟩

theorem tickOne_entryStep (now : Time) (s : scheduledMerge) :
    entryStep s (tickOne now s).1 := by
  unfold tickOne
  split
  · exact entryStep_refl s
  · dsimp only
    rename_i hnd
    split <;> split <;>
      exact ⟨rfl, rfl, fun h => by simp_all, fun h => by simp_all, fun h => by simp_all,
             fun h => by simp_all, fun h => absurd h hnd⟩

theorem countActive_map_tickOne (now : Time) (l : List scheduledMerge) (n : Nat) :
    countActive ((l.map (tickOne now)).map Prod.fst) n = countActive l n := by
  unfold countActive
  rw [List.countP_map, List.countP_map]
  apply List.countP_congr
  intro s _
  obtain ⟨h1, h2, _⟩ := tickOne_fst_key now s
  simp [Function.comp, h1, h2]

theorem keys_modifyIdx {f : scheduledMerge → scheduledMerge}
    (hf : ∀ s, entryKey (f s) = entryKey s) (l : List scheduledMerge) (i : Nat) :
    keys (modifyIdx l i f) = keys l := by
  induction l generalizing i with
  | nil => simp [modifyIdx]
  | cons s rest ih =>
    cases i with
    | zero => simp [modifyIdx, keys, hf s]
    | succ j => simpa [modifyIdx, keys] using ih j

theorem findScheduledIndex_congr {l l' : List scheduledMerge} (h : keys l = keys l')
    (n : Nat) : findScheduledIndex l n = findScheduledIndex l' n := by
  induction l generalizing l' with
  | nil =>
    cases l' with
    | nil => rfl
    | cons t rest' => simp [keys] at h
  | cons s rest ih =>
    cases l' with
    | nil => simp [keys] at h
    | cons t rest' =>
      simp only [keys, List.map_cons, List.cons.injEq, entryKey, Prod.mk.injEq] at h
      obtain ⟨⟨h1, h2⟩, h3⟩ := h
      simp only [findScheduledIndex, h1, h2, @ih rest' h3]

theorem schedStep_listing (m : model) (k : String) :
    SchedStep m.scheduled (updateListingKey m k).1.scheduled := by
  unfold updateListingKey
  dsimp only
  repeat' split
  all_goals exact SchedStep.same _

theorem schedStep_picker (m : model) (k : String) :
    SchedStep m.scheduled (updateTimePickerKey m k).1.scheduled := by
  unfold updateTimePickerKey
  dsimp only
  repeat' split
  all_goals first
    | exact SchedStep.same _
    | exact SchedStep.append _ _

theorem schedStep_scheduling (m : model) (k : String) :
    SchedStep m.scheduled (updateSchedulingKey m k).1.scheduled := by
  unfold updateSchedulingKey
  dsimp only
  repeat' split
  all_goals first
    | exact SchedStep.same _
    | exact SchedStep.append _ _

theorem update_schedStep (m : model) (msg : Msg) :
    SchedStep m.scheduled (Update m msg).1.scheduled := by
  cases msg with
  | windowSizeMsg w h => exact SchedStep.same _
  | meMsg login => exact SchedStep.same _
  | prListMsg l => exact SchedStep.same _
  | errMsg e => exact SchedStep.same _
  | tickMsg now => exact SchedStep.tick _ now
  | mergeResultMsg n err =>
    simp only [Update, onMergeResult]
    split
    · exact SchedStep.same _
    · rename_i idx hfind
      obtain ⟨e0, he0, _, hd0⟩ := findScheduledIndex_spec hfind
      split
      · exact SchedStep.modify _ idx _ ⟨e0, he0, hd0⟩
          (fun s => ⟨rfl, rfl, id, id, id, id, fun _ => rfl⟩)
      · exact SchedStep.modify _ idx _ ⟨e0, he0, hd0⟩
          (fun s => ⟨rfl, rfl, id, id, id, id, id⟩)
  | checkMergedMsg n merged err =>
    simp only [Update, onCheckMerged]
    split
    · exact SchedStep.same _
    · rename_i idx hfind
      obtain ⟨e0, he0, _, hd0⟩ := findScheduledIndex_spec hfind
      split
      · exact SchedStep.modify _ idx _ ⟨e0, he0, hd0⟩
          (fun s => ⟨rfl, rfl, id, id, id, id, fun _ => rfl⟩)
      · split
        · exact SchedStep.modify _ idx _ ⟨e0, he0, hd0⟩
            (fun s => ⟨rfl, rfl, id, id, id, id, fun _ => rfl⟩)
        · exact SchedStep.modify _ idx _ ⟨e0, he0, hd0⟩
            (fun s => ⟨rfl, rfl, id, id, id, id, id⟩)
  | commentResultMsg n p err =>
    simp only [Update, onCommentResult]
    split
    · exact SchedStep.same _
    · rename_i idx hfind
      obtain ⟨e0, he0, _, hd0⟩ := findScheduledIndex_spec hfind
      split
      · exact SchedStep.modify _ idx _ ⟨e0, he0, hd0⟩
          (fun s => ⟨rfl, rfl, id, fun _ => rfl, id, id, id⟩)
      · exact SchedStep.modify _ idx _ ⟨e0, he0, hd0⟩
          (fun s => ⟨rfl, rfl, id, id, id, id, fun _ => rfl⟩)
  | disableAutoMergeResultMsg n err =>
    simp only [Update, onDisableResult]
    split
    · exact SchedStep.same _
    · rename_i idx hfind
      obtain ⟨e0, he0, _, hd0⟩ := findScheduledIndex_spec hfind
      split
      · exact SchedStep.modify _ idx _ ⟨e0, he0, hd0⟩
          (fun s => ⟨rfl, rfl, id, id, id, id, id⟩)
      · exact SchedStep.same _
  | commitSHAMsg n sha err =>
    simp only [Update, onCommitSHA]
    split
    · exact SchedStep.same _
    · rename_i idx hfind
      obtain ⟨e0, he0, _, hd0⟩ := findScheduledIndex_spec hfind
      split
      · exact SchedStep.same _
      · exact SchedStep.modify _ idx _ ⟨e0, he0, hd0⟩
          (fun s => ⟨rfl, rfl, id, id, id, fun _ => rfl, id⟩)
  | keyMsg k =>
    simp only [Update]
    split
    · exact schedStep_scheduling m k
    · exact schedStep_picker m k
    · exact schedStep_listing m k
  | widgetMsg sel psel inp =>
    simp only [Update]
    split
    all_goals exact SchedStep.same _

theorem schedStep_entry {l l' : List scheduledMerge} (h : SchedStep l l') {i : Nat}
    {e : scheduledMerge} (he : l[i]? = some e) :
    ∃ e', l'[i]? = some e' ∧ entryStep e e' := by
  cases h with
  | same => exact ⟨e, he, entryStep_refl e⟩
  | append x =>
    have hi : i < l.length := (List.getElem?_eq_some.mp he).1
    exact ⟨e, by rw [List.getElem?_append_left hi]; exact he, entryStep_refl e⟩
  | modify j f hj hf =>
    by_cases hij : j = i
    · subst hij
      obtain ⟨e0, he0, hd0⟩ := hj
      rw [he] at he0
      have heq : e0 = e := (Option.some.injEq _ _).mp he0.symm
      refine ⟨f e, ?_, ?_⟩
      · rw [getElem?_modifyIdx_self, he]; rfl
      · obtain ⟨h1, h2, h3, h4, h5, h6, _⟩ := hf e
        have hdone : e.Done = false := heq ▸ hd0
        exact ⟨h1, h2, h3, h4, h5, h6, fun hD => absurd hD (by simp [hdone])⟩
    · exact ⟨e, by rw [getElem?_modifyIdx_ne _ _ _ _ hij]; exact he, entryStep_refl e⟩
  | tick now =>
    refine ⟨(tickOne now e).1, ?_, tickOne_entryStep now e⟩
    rw [List.getElem?_map, List.getElem?_map, he]
    rfl

theorem update_entryStep (m : model) (msg : Msg) {i : Nat} {e : scheduledMerge}
    (he : m.scheduled[i]? = some e) :
    ∃ e', (Update m msg).1.scheduled[i]? = some e' ∧ entryStep e e' :=
  schedStep_entry (update_schedStep m msg) he

theorem update_done_frozen (m : model) (msg : Msg) {i : Nat} {e : scheduledMerge}
    (he : m.scheduled[i]? = some e) (hd : e.Done = true) :
    (Update m msg).1.scheduled[i]? = some e := by
  obtain ⟨e', he', hs⟩ := update_entryStep m msg he
  rw [hs.2.2.2.2.2.2 hd] at he'
  exact he'

theorem monoF_done (lm : String) :
    monoF (fun s => { s with Done := true, LastMessage := lm }) :=
  fun _ => ⟨rfl, rfl, id, id, id, id, fun _ => rfl⟩

theorem monoF_checkAt (c : Time) (lm : String) :
    monoF (fun s => { s with CheckAt := c, LastMessage := lm }) :=
  fun _ => ⟨rfl, rfl, id, id, id, id, id⟩

theorem monoF_lm (lm : String) :
    monoF (fun s => { s with LastMessage := lm }) :=
  fun _ => ⟨rfl, rfl, id, id, id, id, id⟩

theorem monoF_mt (lm : String) :
    monoF (fun s => { s with MergeTriggered := true, LastMessage := lm }) :=
  fun _ => ⟨rfl, rfl, id, fun _ => rfl, id, id, id⟩

theorem monoF_fh (lm : String) :
    monoF (fun s => { s with FailureHandled := true, LastMessage := lm }) :=
  fun _ => ⟨rfl, rfl, id, id, id, fun _ => rfl, id⟩

theorem inv_init (now0 : Time) : Inv (initialModel now0) := by
  constructor
  · intro n; simp [initialModel, countActive]
  · intro p hp; simp [initialModel] at hp

theorem Inv_mono {m m' : model} (h : Inv m)
    (hc : ∀ n, countActive m'.scheduled n ≤ countActive m.scheduled n)
    (hsf : m'.schedFor = m.schedFor) : Inv m' := by
  refine ⟨fun n => le_trans (hc n) (h.1 n), fun p hp => ?_⟩
  have h0 := h.2 p (hsf ▸ hp)
  exact Nat.le_zero.mp (le_trans (hc p.Number) (le_of_eq h0))

theorem count_le_of_same_or_modify {l l' : List scheduledMerge}
    (h : l' = l ∨ ∃ f, monoF f ∧ ∃ j, l' = modifyIdx l j f) (n : Nat) :
    countActive l' n ≤ countActive l n := by
  rcases h with rfl | ⟨f, hf, j, rfl⟩
  · exact le_refl _
  · exact countActive_modifyIdx_le hf l j n

theorem inv_append_count {m : model} (h1 : ∀ n, countActive m.scheduled n ≤ 1)
    (h2 : ∀ p : pr, m.schedFor = some p → countActive m.scheduled p.Number = 0)
    {p : pr} (hsf : m.schedFor = some p) (w : Time) (n : Nat) :
    countActive (m.scheduled ++ [newSchedule p w]) n ≤ 1 := by
  rw [countActive_append_single]
  by_cases hn : p.Number = n
  · have h0 : countActive m.scheduled n = 0 := hn ▸ h2 p hsf
    simp only [h0]
    split <;> omega
  · have hif : (if (newSchedule p w).PR.Number = n ∧ (newSchedule p w).Done = false
        then 1 else 0) = 0 := by
      simp [newSchedule, hn]
    rw [hif]
    simpa using h1 n

theorem inv_listing {m : model} (h : Inv m) (k : String) :
    Inv (updateListingKey m k).1 := by
  obtain ⟨h1, h2⟩ := h
  unfold updateListingKey
  dsimp only
  repeat' split
  all_goals try exact ⟨h1, h2⟩
  -- remaining: the branch that sets schedFor after the duplicate check passed
  rename_i p0 hsel hfind
  refine ⟨h1, fun p' hp' => ?_⟩
  have hpp : p0 = p' := by
    have hp2 : some p0 = some p' := hp'
    injection hp2
  subst hpp
  apply findScheduledIndex_none_iff.mp
  have hfind' : ¬((findScheduledIndex m.scheduled p0.Number).isSome = true) := hfind
  cases hF : findScheduledIndex m.scheduled p0.Number with
  | none => rfl
  | some j => rw [hF] at hfind'; simp at hfind'

theorem inv_picker {m : model} (h : Inv m) (k : String) :
    Inv (updateTimePickerKey m k).1 := by
  obtain ⟨h1, h2⟩ := h
  unfold updateTimePickerKey
  dsimp only
  repeat' split
  all_goals try exact ⟨h1, h2⟩
  all_goals try exact ⟨h1, fun p hp => by simp at hp⟩
  -- remaining: appending the new entry after selecting a preset
  exact ⟨fun n => inv_append_count h1 h2 (by assumption) _ n, fun p' hp' => by simp at hp'⟩

theorem inv_scheduling {m : model} (h : Inv m) (k : String) :
    Inv (updateSchedulingKey m k).1 := by
  obtain ⟨h1, h2⟩ := h
  unfold updateSchedulingKey
  dsimp only
  repeat' split
  all_goals try exact ⟨h1, h2⟩
  -- remaining: appending the new entry after a successful parse
  exact ⟨fun n => inv_append_count h1 h2 (by assumption) _ n, fun p' hp' => by simp at hp'⟩

theorem inv_step {m : model} (h : Inv m) (msg : Msg) : Inv (Update m msg).1 := by
  obtain ⟨h1, h2⟩ := h
  cases msg with
  | windowSizeMsg w hh => exact ⟨h1, h2⟩
  | meMsg login => exact ⟨h1, h2⟩
  | prListMsg l => exact ⟨h1, h2⟩
  | errMsg e => exact ⟨h1, h2⟩
  | tickMsg now =>
    refine Inv_mono ⟨h1, h2⟩ (fun n => ?_) rfl
    exact le_of_eq (countActive_map_tickOne now m.scheduled n)
  | mergeResultMsg n err =>
    refine Inv_mono ⟨h1, h2⟩ (fun nn => count_le_of_same_or_modify ?_ nn) ?_
    · simp only [Update, onMergeResult]
      split
      · exact Or.inl rfl
      · split
        · exact Or.inr ⟨_, monoF_done _, _, rfl⟩
        · exact Or.inr ⟨_, monoF_checkAt _ _, _, rfl⟩
    · simp only [Update, onMergeResult]
      split
      · rfl
      · split <;> rfl
  | checkMergedMsg n merged err =>
    refine Inv_mono ⟨h1, h2⟩ (fun nn => count_le_of_same_or_modify ?_ nn) ?_
    · simp only [Update, onCheckMerged]
      split
      · exact Or.inl rfl
      · split
        · exact Or.inr ⟨_, monoF_done _, _, rfl⟩
        · split
          · exact Or.inr ⟨_, monoF_done _, _, rfl⟩
          · exact Or.inr ⟨_, monoF_lm _, _, rfl⟩
    · simp only [Update, onCheckMerged]
      split
      · rfl
      · split
        · rfl
        · split <;> rfl
  | commentResultMsg n p err =>
    refine Inv_mono ⟨h1, h2⟩ (fun nn => count_le_of_same_or_modify ?_ nn) ?_
    · simp only [Update, onCommentResult]
      split
      · exact Or.inl rfl
      · split
        · exact Or.inr ⟨_, monoF_mt _, _, rfl⟩
        · exact Or.inr ⟨_, monoF_done _, _, rfl⟩
    · simp only [Update, onCommentResult]
      split
      · rfl
      · split <;> rfl
  | disableAutoMergeResultMsg n err =>
    refine Inv_mono ⟨h1, h2⟩ (fun nn => count_le_of_same_or_modify ?_ nn) ?_
    · simp only [Update, onDisableResult]
      split
      · exact Or.inl rfl
      · split
        · exact Or.inr ⟨_, monoF_lm _, _, rfl⟩
        · exact Or.inl rfl
    · simp only [Update, onDisableResult]
      split
      · rfl
      · split <;> rfl
  | commitSHAMsg n sha err =>
    refine Inv_mono ⟨h1, h2⟩ (fun nn => count_le_of_same_or_modify ?_ nn) ?_
    · simp only [Update, onCommitSHA]
      split
      · exact Or.inl rfl
      · split
        · exact Or.inl rfl
        · exact Or.inr ⟨_, monoF_fh _, _, rfl⟩
    · simp only [Update, onCommitSHA]
      split
      · rfl
      · split <;> rfl
  | keyMsg k =>
    simp only [Update]
    split
    · exact inv_scheduling ⟨h1, h2⟩ k
    · exact inv_picker ⟨h1, h2⟩ k
    · exact inv_listing ⟨h1, h2⟩ k
  | widgetMsg sel psel inp =>
    refine Inv_mono ⟨h1, h2⟩ (fun nn => count_le_of_same_or_modify ?_ nn) ?_
    · simp only [Update]
      split <;> exact Or.inl rfl
    · simp only [Update]
      split <;> rfl

theorem reachable_inv {m : model} (h : Reachable m) : Inv m := by
  induction h with
  | init now0 => exact inv_init now0
  | step msg _ ih => exact inv_step ih msg

/-! ### Claims -/

/-- C9: a collaborator result message (merge result, check result, comment
result, disable result, commit-SHA result) whose PR number has no active
(non-Done) entry in the scheduled list leaves the model completely unchanged
and issues no command. -/
theorem claim9_orphan_results_dropped (m : model) (n : Nat)
    (hf : findScheduledIndex m.scheduled n = none) :
    (∀ err, Update m (Msg.mergeResultMsg n err) = (m, [])) ∧
    (∀ merged err, Update m (Msg.checkMergedMsg n merged err) = (m, [])) ∧
    (∀ p err, Update m (Msg.commentResultMsg n p err) = (m, [])) ∧
    (∀ err, Update m (Msg.disableAutoMergeResultMsg n err) = (m, [])) ∧
    (∀ sha err, Update m (Msg.commitSHAMsg n sha err) = (m, [])) := by
  refine ⟨fun err => ?_, fun merged err => ?_, fun p err => ?_, fun err => ?_,
    fun sha err => ?_⟩
  · simp only [Update, onMergeResult, hf]
  · simp only [Update, onCheckMerged, hf]
  · simp only [Update, onCommentResult, hf]
  · simp only [Update, onDisableResult, hf]
  · simp only [Update, onCommitSHA, hf]

theorem claim9_witness :
    (Update (initialModel 0) (Msg.mergeResultMsg 7 none) = (initialModel 0, [])) ∧
    (Update (initialModel 0) (Msg.commitSHAMsg 7 "abc" none) = (initialModel 0, [])) := by
  have h := claim9_orphan_results_dropped (initialModel 0) 7 rfl
  exact ⟨h.1 none, h.2.2.2.2 "abc" none⟩

/-- C5: a failed merge-trigger result or a failed state-check result makes the
entry terminal immediately with a failure message and no command; a Done entry
is skipped by every tick (so no check or remediation is ever issued for it) and
is never mutated again by any later message (so CheckAt is never set). -/
theorem claim5_failures_terminal (m : model) (n i : Nat) (e : scheduledMerge) (er : String)
    (hf : findScheduledIndex m.scheduled n = some i) (he : m.scheduled[i]? = some e) :
    ((Update m (Msg.mergeResultMsg n (some er))).2 = [] ∧
      (Update m (Msg.mergeResultMsg n (some er))).1.scheduled[i]? =
        some { e with Done := true, LastMessage := "Auto-merge failed: " ++ er }) ∧
    (∀ merged, (Update m (Msg.checkMergedMsg n merged (some er))).2 = [] ∧
      (Update m (Msg.checkMergedMsg n merged (some er))).1.scheduled[i]? =
        some { e with Done := true, LastMessage := "Check failed: " ++ er }) ∧
    (∀ (now : Time) (x : scheduledMerge), x.Done = true → tickOne now x = (x, [])) ∧
    (∀ (m' : model) (msg : Msg) (j : Nat) (x : scheduledMerge),
      m'.scheduled[j]? = some x → x.Done = true →
      (Update m' msg).1.scheduled[j]? = some x) := by
  refine ⟨⟨?_, ?_⟩, fun merged => ⟨?_, ?_⟩, fun now x hx => ?_,
    fun m' msg j x hx hd => update_done_frozen m' msg hx hd⟩
  · simp only [Update, onMergeResult, hf]
  · have h1 : (Update m (Msg.mergeResultMsg n (some er))).1.scheduled =
        modifyIdx m.scheduled i
          (fun s => { s with Done := true, LastMessage := "Auto-merge failed: " ++ er }) := by
      simp only [Update, onMergeResult, hf]
    rw [h1, getElem?_modifyIdx_self, he]
    rfl
  · simp only [Update, onCheckMerged, hf]
  · have h1 : (Update m (Msg.checkMergedMsg n merged (some er))).1.scheduled =
        modifyIdx m.scheduled i
          (fun s => { s with Done := true, LastMessage := "Check failed: " ++ er }) := by
      simp only [Update, onCheckMerged, hf]
    rw [h1, getElem?_modifyIdx_self, he]
    rfl
  · unfold tickOne
    rw [if_pos hx]

theorem claim5_witness :
    ((Update mActive (Msg.mergeResultMsg 3 (some "boom"))).2 = [] ∧
      (Update mActive (Msg.mergeResultMsg 3 (some "boom"))).1.scheduled[0]? =
        some { entryActive with Done := true, LastMessage := "Auto-merge failed: " ++ "boom" }) ∧
    (∀ merged, (Update mActive (Msg.checkMergedMsg 3 merged (some "boom"))).2 = [] ∧
      (Update mActive (Msg.checkMergedMsg 3 merged (some "boom"))).1.scheduled[0]? =
        some { entryActive with Done := true, LastMessage := "Check failed: " ++ "boom" }) ∧
    (∀ (now : Time) (x : scheduledMerge), x.Done = true → tickOne now x = (x, [])) ∧
    (∀ (m' : model) (msg : Msg) (j : Nat) (x : scheduledMerge),
      m'.scheduled[j]? = some x → x.Done = true →
      (Update m' msg).1.scheduled[j]? = some x) :=
  claim5_failures_terminal mActive 3 0 entryActive "boom" rfl rfl

/-- C7: the result of the pre-merge comment action, success or failure alike,
triggers the merge command; a comment failure is only recorded in the entry's
message and the entry is not terminated (Done is untouched). -/
theorem claim7_comment_result_triggers_merge (m : model) (n i : Nat) (e : scheduledMerge)
    (err : Option String)
    (hf : findScheduledIndex m.scheduled n = some i) (he : m.scheduled[i]? = some e) :
    Update m (Msg.commentResultMsg n true err) =
      ({ m with scheduled := modifyIdx m.scheduled i
                  (fun s => { s with MergeTriggered := true,
                                     LastMessage := preMergeCommentMessage err }),
                status := "PR #" ++ toString n ++ ": " ++ preMergeCommentMessage err },
       [Cmd.mergePR n]) ∧
    (Update m (Msg.commentResultMsg n true err)).1.scheduled[i]? =
      some { e with MergeTriggered := true, LastMessage := preMergeCommentMessage err } := by
  have h1 : Update m (Msg.commentResultMsg n true err) =
      ({ m with scheduled := modifyIdx m.scheduled i
                  (fun s => { s with MergeTriggered := true,
                                     LastMessage := preMergeCommentMessage err }),
                status := "PR #" ++ toString n ++ ": " ++ preMergeCommentMessage err },
       [Cmd.mergePR n]) := by
    cases err <;> simp only [Update, onCommentResult, hf, preMergeCommentMessage] <;>
      rw [if_pos trivial]
  refine ⟨h1, ?_⟩
  rw [h1]
  dsimp only
  rw [getElem?_modifyIdx_self, he]
  rfl

theorem claim7_witness :
    Update mActive (Msg.commentResultMsg 3 true (some "cfail")) =
      ({ mActive with scheduled := modifyIdx mActive.scheduled 0
                        (fun s => { s with MergeTriggered := true,
                                           LastMessage := preMergeCommentMessage (some "cfail") }),
                      status := "PR #" ++ toString 3 ++ ": " ++ preMergeCommentMessage (some "cfail") },
       [Cmd.mergePR 3]) ∧
    (Update mActive (Msg.commentResultMsg 3 true (some "cfail"))).1.scheduled[0]? =
      some { entryActive with MergeTriggered := true,
                              LastMessage := preMergeCommentMessage (some "cfail") } :=
  claim7_comment_result_triggers_merge mActive 3 0 entryActive (some "cfail") rfl rfl

/-- C4: a successful merge-trigger result sets the entry's CheckAt to the
current clock plus 60 seconds, and for an entry awaiting its check the tick
handler issues the state-check exactly on ticks with now strictly greater than
CheckAt. -/
theorem claim4_checkAt_plus_sixty_strict (m : model) (n i : Nat) (e : scheduledMerge)
    (hf : findScheduledIndex m.scheduled n = some i) (he : m.scheduled[i]? = some e) :
    ((Update m (Msg.mergeResultMsg n none)).1.scheduled[i]? =
        some { e with CheckAt := m.now + 60,
                      LastMessage := "Auto-merge set, will check in 1 minute" }) ∧
    (∀ (now : Time) (x : scheduledMerge),
      x.Done = false → x.PreMergeCommentPosted = true → x.MergeTriggered = true →
      x.CheckScheduled = false → x.CheckAt ≠ 0 →
      (now ≤ x.CheckAt → tickOne now x = (x, [])) ∧
      (x.CheckAt < now →
        tickOne now x =
          ({ x with CheckScheduled := true,
                    LastMessage := "Checking merge status for PR #" ++ toString x.PR.Number },
           [Cmd.checkMerged x.PR.Number]))) := by
  constructor
  · have h1 : (Update m (Msg.mergeResultMsg n none)).1.scheduled =
        modifyIdx m.scheduled i
          (fun s => { s with CheckAt := m.now + 60,
                             LastMessage := "Auto-merge set, will check in 1 minute" }) := by
      simp only [Update, onMergeResult, hf]
    rw [h1, getElem?_modifyIdx_self, he]
    rfl
  · intro now x hd hp hmt hcs hca
    constructor
    · intro hle
      unfold tickOne
      rw [if_neg (by simp [hd])]
      dsimp only
      rw [if_neg (show ¬(x.PreMergeCommentPosted = false ∧ x.When ≠ 0 ∧ x.When < now) from by
        rintro ⟨hPf, -, -⟩; rw [hp] at hPf; simp at hPf)]
      dsimp only
      rw [if_neg (show ¬(x.MergeTriggered = true ∧ x.CheckScheduled = false ∧
          x.CheckAt ≠ 0 ∧ x.CheckAt < now) from by
        rintro ⟨-, -, -, hlt⟩
        exact absurd (Nat.lt_of_lt_of_le hlt hle) (Nat.lt_irrefl _))]
    · intro hlt
      unfold tickOne
      rw [if_neg (by simp [hd])]
      dsimp only
      rw [if_neg (show ¬(x.PreMergeCommentPosted = false ∧ x.When ≠ 0 ∧ x.When < now) from by
        rintro ⟨hPf, -, -⟩; rw [hp] at hPf; simp at hPf)]
      dsimp only
      rw [if_pos (show x.MergeTriggered = true ∧ x.CheckScheduled = false ∧
          x.CheckAt ≠ 0 ∧ x.CheckAt < now from ⟨hmt, hcs, hca, hlt⟩)]
      rfl

theorem claim4_witness :
    ((Update mActive (Msg.mergeResultMsg 3 none)).1.scheduled[0]? =
        some { entryActive with CheckAt := mActive.now + 60,
                                LastMessage := "Auto-merge set, will check in 1 minute" }) ∧
    (∀ (now : Time) (x : scheduledMerge),
      x.Done = false → x.PreMergeCommentPosted = true → x.MergeTriggered = true →
      x.CheckScheduled = false → x.CheckAt ≠ 0 →
      (now ≤ x.CheckAt → tickOne now x = (x, [])) ∧
      (x.CheckAt < now →
        tickOne now x =
          ({ x with CheckScheduled := true,
                    LastMessage := "Checking merge status for PR #" ++ toString x.PR.Number },
           [Cmd.checkMerged x.PR.Number]))) :=
  claim4_checkAt_plus_sixty_strict mActive 3 0 entryActive rfl rfl

/-- C3: for an entry scheduled at a nonzero time T that has not yet posted its
pre-merge comment, a tick issues the comment action exactly when now is
strictly greater than T: never on an earlier tick, never at now = T, and once
the posted flag is set no later tick issues a pre-merge comment again.  The
tick handler rewrites entry i to the per-entry tickOne result. -/
theorem claim3_comment_strictly_after (m : model) (i : Nat) (e : scheduledMerge) (now : Time)
    (he : m.scheduled[i]? = some e) (hd : e.Done = false)
    (hp : e.PreMergeCommentPosted = false) (hmt : e.MergeTriggered = false)
    (hw : e.When ≠ 0) :
    (now ≤ e.When → tickOne now e = (e, [])) ∧
    (e.When < now →
      tickOne now e =
        ({ e with PreMergeCommentPosted := true,
                  LastMessage := "Posting pre-merge comment for PR #" ++ toString e.PR.Number },
         [Cmd.commentPR e.PR.Number
            ("Setting PR to auto-merge. Scheduled merge time: " ++ formatTime e.When) true])) ∧
    ((Update m (Msg.tickMsg now)).1.scheduled[i]? = some (tickOne now e).1) ∧
    (∀ (nw : Time) (x : scheduledMerge), x.PreMergeCommentPosted = true →
      ∀ (nn : Nat) (body : String), Cmd.commentPR nn body true ∉ (tickOne nw x).2) := by
  refine ⟨?_, ?_, ?_, ?_⟩
  · intro hle
    unfold tickOne
    rw [if_neg (by simp [hd])]
    dsimp only
    rw [if_neg (show ¬(e.PreMergeCommentPosted = false ∧ e.When ≠ 0 ∧ e.When < now) from by
      rintro ⟨-, -, hlt⟩
      exact absurd (Nat.lt_of_lt_of_le hlt hle) (Nat.lt_irrefl _))]
    dsimp only
    rw [if_neg (show ¬(e.MergeTriggered = true ∧ e.CheckScheduled = false ∧
        e.CheckAt ≠ 0 ∧ e.CheckAt < now) from by
      rintro ⟨hMT, -⟩; rw [hmt] at hMT; simp at hMT)]
  · intro hlt
    unfold tickOne
    rw [if_neg (by simp [hd])]
    dsimp only
    rw [if_pos (show e.PreMergeCommentPosted = false ∧ e.When ≠ 0 ∧ e.When < now from
      ⟨hp, hw, hlt⟩)]
    dsimp only
    rw [if_neg (show ¬(e.MergeTriggered = true ∧ e.CheckScheduled = false ∧
        e.CheckAt ≠ 0 ∧ e.CheckAt < now) from by
      rintro ⟨hMT, -⟩; rw [hmt] at hMT; simp at hMT)]
  · have h1 : (Update m (Msg.tickMsg now)).1.scheduled =
        (m.scheduled.map (tickOne now)).map Prod.fst := rfl
    rw [h1, List.getElem?_map, List.getElem?_map, he]
    rfl
  · intro nw x hflag nn body
    unfold tickOne
    split
    · simp
    · dsimp only
      split
      · rename_i hc1
        rw [hflag] at hc1
        simp at hc1
      · dsimp only
        split
        · simp
        · simp

theorem claim3_witness :
    (100 ≤ entryActive.When → tickOne 100 entryActive = (entryActive, [])) ∧
    (entryActive.When < 100 →
      tickOne 100 entryActive =
        ({ entryActive with
             PreMergeCommentPosted := true,
             LastMessage := "Posting pre-merge comment for PR #" ++ toString entryActive.PR.Number },
         [Cmd.commentPR entryActive.PR.Number
            ("Setting PR to auto-merge. Scheduled merge time: " ++ formatTime entryActive.When) true])) ∧
    ((Update mActive (Msg.tickMsg 100)).1.scheduled[0]? = some (tickOne 100 entryActive).1) ∧
    (∀ (nw : Time) (x : scheduledMerge), x.PreMergeCommentPosted = true →
      ∀ (nn : Nat) (body : String), Cmd.commentPR nn body true ∉ (tickOne nw x).2) :=
  claim3_comment_strictly_after mActive 0 entryActive 100 rfl rfl rfl rfl (by decide)

theorem find_modifyIdx_keypres (f : scheduledMerge → scheduledMerge)
    (hf : ∀ s, entryKey (f s) = entryKey s) (l : List scheduledMerge) (i n : Nat) :
    findScheduledIndex (modifyIdx l i f) n = findScheduledIndex l n :=
  findScheduledIndex_congr (keys_modifyIdx hf l i) n

theorem map_done_modifyIdx (f : scheduledMerge → scheduledMerge)
    (hf : ∀ s, (f s).Done = s.Done) (l : List scheduledMerge) (i : Nat) :
    (modifyIdx l i f).map (fun s => s.Done) = l.map (fun s => s.Done) := by
  induction l generalizing i with
  | nil => simp [modifyIdx]
  | cons s rest ih =>
    cases i with
    | zero => simp [modifyIdx, hf s]
    | succ j => simpa [modifyIdx] using ih j

/-- C6: across any single update step, each entry's five stage flags only
advance (never revert from true to false), and an entry whose Done flag is set
is final: no handler mutates any of its fields again. -/
theorem claim6_stage_monotone (m : model) (msg : Msg) (i : Nat) (e : scheduledMerge)
    (he : m.scheduled[i]? = some e) :
    ∃ e', (Update m msg).1.scheduled[i]? = some e' ∧
      (e.PreMergeCommentPosted = true → e'.PreMergeCommentPosted = true) ∧
      (e.MergeTriggered = true → e'.MergeTriggered = true) ∧
      (e.CheckScheduled = true → e'.CheckScheduled = true) ∧
      (e.FailureHandled = true → e'.FailureHandled = true) ∧
      (e.Done = true → e'.Done = true) ∧
      (e.Done = true → e' = e) := by
  obtain ⟨e', he', hs⟩ := update_entryStep m msg he
  obtain ⟨_, _, h3, h4, h5, h6, h7⟩ := hs
  exact ⟨e', he', h3, h4, h5, h6, fun hD => by rw [h7 hD]; exact hD, h7⟩

theorem claim6_witness :
    ∃ e', (Update mActive (Msg.tickMsg 200)).1.scheduled[0]? = some e' ∧
      (entryActive.PreMergeCommentPosted = true → e'.PreMergeCommentPosted = true) ∧
      (entryActive.MergeTriggered = true → e'.MergeTriggered = true) ∧
      (entryActive.CheckScheduled = true → e'.CheckScheduled = true) ∧
      (entryActive.FailureHandled = true → e'.FailureHandled = true) ∧
      (entryActive.Done = true → e'.Done = true) ∧
      (entryActive.Done = true → e' = entryActive) :=
  claim6_stage_monotone mActive (Msg.tickMsg 200) 0 entryActive rfl

/-- C8: in the remediation branch, a failed head-commit fetch substitutes the
placeholder "unknown"; the notification, the disable-action and the failure
comment (whose body references the "unknown" commit) are still issued, and a
subsequent successful failure-comment result marks the entry Done with the
success message. -/
theorem claim8_unknown_sha (m : model) (n i : Nat) (e : scheduledMerge)
    (sha er : String)
    (hf : findScheduledIndex m.scheduled n = some i) (he : m.scheduled[i]? = some e) :
    ((Update m (Msg.commitSHAMsg n sha (some er))).2 =
      [Cmd.notifySend "PR not merged"
         ("PR #" ++ toString n ++ " (" ++ e.PR.Title ++ ") is still not merged after auto-merge."),
       Cmd.disableAutoMerge n,
       Cmd.commentPR n
         ("Auto-merge did not complete successfully. Disabling auto-merge.\n\nCurrent commit: "
           ++ "unknown")
         false]) ∧
    ((Update m (Msg.commitSHAMsg n sha (some er))).1.scheduled[i]? =
      some { e with FailureHandled := true,
                    LastMessage := "Disabling auto-merge and posting failure comment..." }) ∧
    ((Update (Update m (Msg.commitSHAMsg n sha (some er))).1
        (Msg.commentResultMsg n false none)).1.scheduled[i]? =
      some { e with FailureHandled := true, Done := true,
                    LastMessage := "PR not merged (auto-merge disabled, notification sent)" }) := by
  have h1sched : (Update m (Msg.commitSHAMsg n sha (some er))).1.scheduled =
      modifyIdx m.scheduled i
        (fun s => { s with FailureHandled := true,
                           LastMessage := "Disabling auto-merge and posting failure comment..." }) := by
    simp only [Update, onCommitSHA, hf, he]
  have h1get : (Update m (Msg.commitSHAMsg n sha (some er))).1.scheduled[i]? =
      some { e with FailureHandled := true,
                    LastMessage := "Disabling auto-merge and posting failure comment..." } := by
    rw [h1sched, getElem?_modifyIdx_self, he]
    rfl
  refine ⟨?_, h1get, ?_⟩
  · simp only [Update, onCommitSHA, hf, he]
    rfl
  · have h1find : findScheduledIndex
        (Update m (Msg.commitSHAMsg n sha (some er))).1.scheduled n = some i := by
      rw [h1sched, find_modifyIdx_keypres
        (fun s => { s with FailureHandled := true,
                           LastMessage := "Disabling auto-merge and posting failure comment..." })
        (fun s => rfl)]
      exact hf
    generalize hM : (Update m (Msg.commitSHAMsg n sha (some er))).1 = m1 at h1find h1get ⊢
    have h2sched : (Update m1 (Msg.commentResultMsg n false none)).1.scheduled =
        modifyIdx m1.scheduled i
          (fun s => { s with Done := true,
                             LastMessage := "PR not merged (auto-merge disabled, notification sent)" }) := by
      simp only [Update, onCommentResult, h1find]
      rw [if_neg (show ¬(false = true) from by simp)]
    rw [h2sched, getElem?_modifyIdx_self, h1get]
    rfl

theorem claim8_witness :
    ((Update mActive (Msg.commitSHAMsg 3 "deadbeef" (some "fetchfail"))).2 =
      [Cmd.notifySend "PR not merged"
         ("PR #" ++ toString 3 ++ " (" ++ entryActive.PR.Title ++ ") is still not merged after auto-merge."),
       Cmd.disableAutoMerge 3,
       Cmd.commentPR 3
         ("Auto-merge did not complete successfully. Disabling auto-merge.\n\nCurrent commit: "
           ++ "unknown")
         false]) ∧
    ((Update mActive (Msg.commitSHAMsg 3 "deadbeef" (some "fetchfail"))).1.scheduled[0]? =
      some { entryActive with
               FailureHandled := true,
               LastMessage := "Disabling auto-merge and posting failure comment..." }) ∧
    ((Update (Update mActive (Msg.commitSHAMsg 3 "deadbeef" (some "fetchfail"))).1
        (Msg.commentResultMsg 3 false none)).1.scheduled[0]? =
      some { entryActive with
               FailureHandled := true, Done := true,
               LastMessage := "PR not merged (auto-merge disabled, notification sent)" }) :=
  claim8_unknown_sha mActive 3 0 entryActive "deadbeef" "fetchfail" rfl rfl

/-- C10: in custom time entry with a target selected, confirming with an empty
string or the case-insensitive word "now" creates an entry scheduled at the
current tick time; confirming with any other string that does not parse in the
"2006-01-02 15:04" layout creates no entry, leaves the scheduled list and the
mode unchanged, and only sets the invalid-format status message. -/
theorem claim10_custom_time_entry (m : model) (p : pr)
    (hm : m.mode = mode.modeScheduling) (hp : m.schedFor = some p) :
    ((trimString m.input = "" ∨ toLowerString (trimString m.input) = "now") →
      Update m (Msg.keyMsg "enter") =
        ({ m with scheduled := m.scheduled ++ [newSchedule p m.now],
                  status := "Scheduled auto-merge for PR #" ++ toString p.Number ++ " at "
                    ++ formatTime m.now,
                  mode := mode.modeListing, schedFor := none }, [])) ∧
    (trimString m.input ≠ "" → toLowerString (trimString m.input) ≠ "now" →
      goParseDateTime (trimString m.input) = none →
      Update m (Msg.keyMsg "enter") =
        ({ m with status := "Invalid time format. Use YYYY-MM-DD HH:MM or 'now'." }, [])) := by
  have h0 : Update m (Msg.keyMsg "enter") = updateSchedulingKey m "enter" := by
    simp only [Update, hm]
  constructor
  · intro hraw
    rw [h0]
    unfold updateSchedulingKey
    rw [if_pos rfl]
    dsimp only
    rw [if_pos hraw, hp]
  · intro h1 h2 h3
    rw [h0]
    unfold updateSchedulingKey
    rw [if_pos rfl]
    dsimp only
    rw [if_neg (show ¬(trimString m.input = "" ∨ toLowerString (trimString m.input) = "now") from by
      rintro (h | h)
      · exact h1 h
      · exact h2 h), h3]

theorem claim10_witness :
    (Update mSchedNow (Msg.keyMsg "enter") =
      ({ mSchedNow with
           scheduled := mSchedNow.scheduled ++ [newSchedule prA mSchedNow.now],
           status := "Scheduled auto-merge for PR #" ++ toString prA.Number ++ " at "
             ++ formatTime mSchedNow.now,
           mode := mode.modeListing, schedFor := none }, [])) ∧
    (Update mSched (Msg.keyMsg "enter") =
      ({ mSched with status := "Invalid time format. Use YYYY-MM-DD HH:MM or 'now'." }, [])) := by
  constructor
  · exact (claim10_custom_time_entry mSchedNow prA rfl rfl).1 (Or.inr (by decide))
  · exact (claim10_custom_time_entry mSched prA rfl rfl).2 (by decide) (by decide) rfl

/-- C1: in every reachable state at most one non-terminal (non-Done) entry per
PR number exists in the scheduled list, and pressing enter in the listing on a
PR that already has an active entry is rejected with a status message, leaving
the model otherwise unchanged and creating no entry. -/
theorem claim1_registry_unique_active :
    (∀ m : model, Reachable m → ∀ n, countActive m.scheduled n ≤ 1) ∧
    (∀ (m : model) (p : pr), m.mode = mode.modeListing → m.listSelected = some p →
      (findScheduledIndex m.scheduled p.Number).isSome = true →
      Update m (Msg.keyMsg "enter") =
        ({ m with quitWarned := false,
                  status := "PR #" ++ toString p.Number ++ " already has a scheduled merge" },
         [])) := by
  constructor
  · intro m hr n
    exact (reachable_inv hr).1 n
  · intro m p hm hsel hfind
    have h0 : Update m (Msg.keyMsg "enter") = updateListingKey m "enter" := by
      simp only [Update, hm]
    rw [h0]
    unfold updateListingKey
    rw [if_neg (show ¬(("enter" : String) = "q" ∨ ("enter" : String) = "ctrl+c") from by decide)]
    rw [if_neg (show ("enter" : String) ≠ "m" from by decide)]
    rw [if_neg (show ("enter" : String) ≠ "r" from by decide)]
    rw [if_pos (show ("enter" : String) = "enter" from rfl)]
    dsimp only
    rw [show ({ m with quitWarned := false } : model).listSelected = m.listSelected from rfl, hsel]
    dsimp only
    rw [if_pos (show (findScheduledIndex
      ({ m with quitWarned := false } : model).scheduled p.Number).isSome = true from hfind)]

theorem claim1_witness :
    countActive (initialModel 0).scheduled 7 ≤ 1 ∧
    Update mActive (Msg.keyMsg "enter") =
      ({ mActive with quitWarned := false,
                      status := "PR #" ++ toString prA.Number ++ " already has a scheduled merge" },
       []) :=
  ⟨claim1_registry_unique_active.1 (initialModel 0) (Reachable.init 0) 7,
   claim1_registry_unique_active.2 mActive prA rfl rfl (by decide)⟩

/-- C2: a state check reporting "not merged" leads the entry to Done via the
remediation path in either arrival order of the two remediation results and
regardless of the disable-action outcome; the disable result never changes any
Done flag, and the failure-comment result alone sets Done and determines the
final recorded message. -/
theorem claim2_remediation_reaches_done (m : model) (n i : Nat) (sha : String)
    (shaErr dErr cErr : Option String)
    (hf : findScheduledIndex m.scheduled n = some i) :
    ((Update m (Msg.disableAutoMergeResultMsg n dErr)).1.scheduled.map (fun s => s.Done) =
        m.scheduled.map (fun s => s.Done)) ∧
    (∀ e, m.scheduled[i]? = some e →
      (Update m (Msg.commentResultMsg n false cErr)).1.scheduled[i]? =
        some { e with Done := true, LastMessage := remediationFinalMessage cErr }) ∧
    (∃ e', (runMsgs m [Msg.checkMergedMsg n false none, Msg.commitSHAMsg n sha shaErr,
          Msg.disableAutoMergeResultMsg n dErr, Msg.commentResultMsg n false cErr]).scheduled[i]? =
        some e' ∧ e'.Done = true ∧ e'.LastMessage = remediationFinalMessage cErr) ∧
    (∃ e', (runMsgs m [Msg.checkMergedMsg n false none, Msg.commitSHAMsg n sha shaErr,
          Msg.commentResultMsg n false cErr, Msg.disableAutoMergeResultMsg n dErr]).scheduled[i]? =
        some e' ∧ e'.Done = true ∧ e'.LastMessage = remediationFinalMessage cErr) := by
  obtain ⟨e0, he0, hn0, hd0⟩ := findScheduledIndex_spec hf
  have hcomment : ∀ (mm : model) (j : Nat) (x : scheduledMerge),
      findScheduledIndex mm.scheduled n = some j → mm.scheduled[j]? = some x →
      (Update mm (Msg.commentResultMsg n false cErr)).1.scheduled[j]? =
        some { x with Done := true, LastMessage := remediationFinalMessage cErr } := by
    intro mm j x hFj hxj
    have hsched : (Update mm (Msg.commentResultMsg n false cErr)).1.scheduled =
        modifyIdx mm.scheduled j
          (fun s => { s with Done := true, LastMessage := remediationFinalMessage cErr }) := by
      cases cErr with
      | none =>
        simp only [Update, onCommentResult, hFj, remediationFinalMessage]
        rw [if_neg (show ¬(false = true) from by simp)]
      | some ce =>
        simp only [Update, onCommentResult, hFj, remediationFinalMessage]
        rw [if_neg (show ¬(false = true) from by simp)]
    rw [hsched, getElem?_modifyIdx_self, hxj]
    rfl
  refine ⟨?_, fun e he => hcomment m i e hf he, ?_⟩
  · cases hF : findScheduledIndex m.scheduled n with
    | none => simp only [Update, onDisableResult, hF]
    | some idx =>
      cases dErr with
      | none => simp only [Update, onDisableResult, hF]
      | some de =>
        simp only [Update, onDisableResult, hF]
        exact map_done_modifyIdx
          (fun s => { s with LastMessage := "Failed to disable auto-merge: " ++ de })
          (fun s => rfl) _ _
  -- the two remediation sequences share their first two steps
  have h1sched : (Update m (Msg.checkMergedMsg n false none)).1.scheduled =
      modifyIdx m.scheduled i
        (fun s => { s with LastMessage := "PR not merged, fetching commit SHA..." }) := by
    simp only [Update, onCheckMerged, hf]
    rw [if_neg (show ¬(false = true) from by simp)]
  set m1 := (Update m (Msg.checkMergedMsg n false none)).1 with hm1
  have h1find : findScheduledIndex m1.scheduled n = some i := by
    rw [h1sched, find_modifyIdx_keypres
      (fun s => { s with LastMessage := "PR not merged, fetching commit SHA..." })
      (fun s => rfl)]
    exact hf
  have h1get : m1.scheduled[i]? =
      some { e0 with LastMessage := "PR not merged, fetching commit SHA..." } := by
    rw [h1sched, getElem?_modifyIdx_self, he0]
    rfl
  have h2sched : (Update m1 (Msg.commitSHAMsg n sha shaErr)).1.scheduled =
      modifyIdx m1.scheduled i
        (fun s => { s with FailureHandled := true,
                           LastMessage := "Disabling auto-merge and posting failure comment..." }) := by
    simp only [Update, onCommitSHA, h1find, h1get]
  set m2 := (Update m1 (Msg.commitSHAMsg n sha shaErr)).1 with hm2
  have h2find : findScheduledIndex m2.scheduled n = some i := by
    rw [h2sched, find_modifyIdx_keypres
      (fun s => { s with FailureHandled := true,
                         LastMessage := "Disabling auto-merge and posting failure comment..." })
      (fun s => rfl)]
    exact h1find
  have h2get : m2.scheduled[i]? =
      some { e0 with FailureHandled := true,
                     LastMessage := "Disabling auto-merge and posting failure comment..." } := by
    rw [h2sched, getElem?_modifyIdx_self, h1get]
    rfl
  constructor
  · -- disable result first, then the failure-comment result
    have h3 : findScheduledIndex (Update m2 (Msg.disableAutoMergeResultMsg n dErr)).1.scheduled n
          = some i ∧
        ∃ x, (Update m2 (Msg.disableAutoMergeResultMsg n dErr)).1.scheduled[i]? = some x := by
      cases dErr with
      | none =>
        have hid : (Update m2 (Msg.disableAutoMergeResultMsg n none)).1 = m2 := by
          simp only [Update, onDisableResult, h2find]
        rw [hid]
        exact ⟨h2find, _, h2get⟩
      | some de =>
        have hsched3 : (Update m2 (Msg.disableAutoMergeResultMsg n (some de))).1.scheduled =
            modifyIdx m2.scheduled i
              (fun s => { s with LastMessage := "Failed to disable auto-merge: " ++ de }) := by
          simp only [Update, onDisableResult, h2find]
        constructor
        · rw [hsched3, find_modifyIdx_keypres
            (fun s => { s with LastMessage := "Failed to disable auto-merge: " ++ de })
            (fun s => rfl)]
          exact h2find
        · exact ⟨{ e0 with
                     FailureHandled := true,
                     LastMessage := "Failed to disable auto-merge: " ++ de },
                 by rw [hsched3, getElem?_modifyIdx_self, h2get]; rfl⟩
    obtain ⟨h3find, x3, h3get⟩ := h3
    have hrun : runMsgs m [Msg.checkMergedMsg n false none, Msg.commitSHAMsg n sha shaErr,
        Msg.disableAutoMergeResultMsg n dErr, Msg.commentResultMsg n false cErr] =
        (Update (Update m2 (Msg.disableAutoMergeResultMsg n dErr)).1
          (Msg.commentResultMsg n false cErr)).1 := by
      rw [hm2, hm1]
      rfl
    refine ⟨{ x3 with Done := true, LastMessage := remediationFinalMessage cErr }, ?_, rfl, rfl⟩
    rw [hrun]
    exact hcomment _ i x3 h3find h3get
  · -- failure-comment result first, then the disable result on a Done entry
    have h4get := hcomment m2 i _ h2find h2get
    have hrun : runMsgs m [Msg.checkMergedMsg n false none, Msg.commitSHAMsg n sha shaErr,
        Msg.commentResultMsg n false cErr, Msg.disableAutoMergeResultMsg n dErr] =
        (Update (Update m2 (Msg.commentResultMsg n false cErr)).1
          (Msg.disableAutoMergeResultMsg n dErr)).1 := by
      rw [hm2, hm1]
      rfl
    refine ⟨{ e0 with FailureHandled := true, Done := true,
                      LastMessage := remediationFinalMessage cErr }, ?_, rfl, rfl⟩
    rw [hrun]
    exact update_done_frozen _ _ h4get rfl

theorem claim2_witness :
    ((Update mActive (Msg.disableAutoMergeResultMsg 3 (some "de"))).1.scheduled.map
        (fun s => s.Done) = mActive.scheduled.map (fun s => s.Done)) ∧
    ((Update mActive (Msg.commentResultMsg 3 false none)).1.scheduled[0]? =
      some { entryActive with Done := true, LastMessage := remediationFinalMessage none }) ∧
    (∃ e', (runMsgs mActive [Msg.checkMergedMsg 3 false none, Msg.commitSHAMsg 3 "s" (some "se"),
          Msg.disableAutoMergeResultMsg 3 (some "de"), Msg.commentResultMsg 3 false none]).scheduled[0]? =
        some e' ∧ e'.Done = true ∧ e'.LastMessage = remediationFinalMessage none) ∧
    (∃ e', (runMsgs mActive [Msg.checkMergedMsg 3 false none, Msg.commitSHAMsg 3 "s" (some "se"),
          Msg.commentResultMsg 3 false none, Msg.disableAutoMergeResultMsg 3 (some "de")]).scheduled[0]? =
        some e' ∧ e'.Done = true ∧ e'.LastMessage = remediationFinalMessage none) := by
  have h := claim2_remediation_reaches_done mActive 3 0 "s" (some "se") (some "de") none rfl
  exact ⟨h.1, h.2.1 entryActive rfl, h.2.2.1, h.2.2.2⟩

end PrScheduler
